import Mathlib

set_option autoImplicit false

/-!
Shallow embedding of the progress/streak computation of the soberoctobr
backend (src/app/api/challenges.py), together with the pieces of the data
model it reads (src/app/models/challenge.py, habit.py, daily_entry.py) and
the challenge creation rule (create_challenge).

Modelling conventions:
* A Python `datetime` (timezone already stripped, as `normalize_date` does
  before any arithmetic) is a `PyDateTime`: a calendar-day number `day : Int`
  and a seconds-past-midnight component `sec : Nat`.  `normalize_date`
  truncates to midnight, i.e. sets `sec := 0`.  `timedelta.days` of a
  difference floors by 86400 seconds, exactly as Python does.
* Python integers are `Int`.
* The percentage expression `round((num / den) * 100)` is modelled as the
  float pipeline Python executes: `num / den` correctly rounded to an IEEE
  binary64 value (round half to even), multiplied by the exactly
  representable constant 100 and correctly rounded again, and the resulting
  double rounded half-to-even to an integer by `round`.  The binary64
  rounding (`roundB64`) normalizes the exact rational into the mantissa
  range `[2^52, 2^53)` and rounds there; it is exact on the normal,
  non-overflowing float range, which covers every count the computation
  can produce.  This reproduces the float artifacts: `(23, 40)` yields 57
  (the double is just below 57.5) while `(1, 8)` yields exactly 12.5,
  rounded to the even neighbour 12.
* The habit list handed to the calculator is the result of the query at
  lines 230-233: the challenge's habits with `is_active = True`, ordered by
  their display order.  The entry list is the raw entry table for those
  habits; the calculator itself applies the window filter of lines 265-269.
* The external template-icon lookup (`get_template_by_id` followed by
  `.get('icon')`) is an injected function `iconOf : String → Option String`,
  as the spec's external-interface section describes it.
-/

/-- A (naive, timezone-free) Python datetime: calendar day number plus
seconds past midnight. -/
structure PyDateTime where
  day : Int
  sec : Nat
deriving Repr, DecidableEq

/-- `normalize_date` (src/app/api/challenges.py lines 184-188): truncate a
datetime to midnight of its calendar day. -/
def normalize_date (dt : PyDateTime) : PyDateTime := ⟨dt.day, 0⟩

/-- Python datetime comparison `a <= b`: lexicographic on (day, time). -/
def PyDateTime.dtle (a b : PyDateTime) : Bool :=
  decide (a.day < b.day) || (decide (a.day = b.day) && decide (a.sec ≤ b.sec))

/-- `(a - b).days` of Python: the difference in seconds, floor-divided by
86400 (timedelta normalizes with floor on the day component). -/
def PyDateTime.subDays (a b : PyDateTime) : Int :=
  ((a.day - b.day) * 86400 + ((a.sec : Int) - (b.sec : Int))).fdiv 86400

/-- Challenge row (src/app/models/challenge.py): the fields the progress
computation reads.  `status` is irrelevant to it. -/
structure Challenge where
  id : String
  start_date : PyDateTime
  end_date : PyDateTime
deriving Repr, DecidableEq

/-- Habit row (src/app/models/habit.py): the fields the progress computation
reads.  The query filters (`challenge_id`, `is_active = True`, ordering by
`order`) are reflected by taking the habit list to be that query's result. -/
structure Habit where
  id : String
  name : String
  created_at : PyDateTime
  template_id : Option String
deriving Repr, DecidableEq

/-- Daily entry row (src/app/models/daily_entry.py).  `count` exists in the
model but the progress computation only ever reads `completed`. -/
structure DailyEntry where
  habit_id : String
  date : PyDateTime
  completed : Bool
  count : Option Int
deriving Repr, DecidableEq

/-- One element of `last_7_days` (src/app/schemas/progress.py, DayProgress).
`date` is the normalized day number. -/
structure DayProgress where
  date : Int
  completed_count : Int
  total_count : Int
  is_perfect : Bool
  completion_percentage : Int
deriving Repr, DecidableEq

/-- One element of `habit_progress` (src/app/schemas/progress.py,
HabitProgress). -/
structure HabitProgress where
  habit_id : String
  habit_name : String
  icon : Option String
  completed_count : Int
  total_days : Int
  completion_percentage : Int
deriving Repr, DecidableEq

/-- The progress report (src/app/schemas/progress.py,
ChallengeProgressResponse). -/
structure ChallengeProgressResponse where
  challenge_id : String
  start_date : PyDateTime
  end_date : PyDateTime
  current_day : Int
  total_days : Int
  days_elapsed : Int
  total_habits_completed : Int
  total_possible_habits : Int
  overall_completion_percentage : Int
  current_streak : Int
  longest_streak : Int
  last_7_days : List DayProgress
  habit_progress : List HabitProgress
deriving Repr, DecidableEq

/-- `create_challenge` (src/app/api/challenges.py lines 44-74): the end date
is the start date plus `timedelta(days=30)`, which adds 30 to the day number
and keeps the time of day. -/
def create_challenge (id : String) (start_date : PyDateTime) : Challenge :=
  { id := id, start_date := start_date,
    end_date := ⟨start_date.day + 30, start_date.sec⟩ }

/-- Round-half-to-even of `n / d`, for `d > 0`, in natural-number
arithmetic: the tie-to-even rounding core both of IEEE binary64 rounding
and of Python's `round`.  (The program only ever rounds nonnegative
quotients: completed-entry counts over positive habit-day counts.) -/
def natRoundHalfEven (n d : Nat) : Nat :=
  let q := n / d
  let r := n % d
  if 2 * r < d then q
  else if d < 2 * r then q + 1
  else if q % 2 = 0 then q else q + 1

/-- Double the denominator of `n / d` until the quotient is below `2^53`,
tracking the binary exponent; fuel-bounded so the recursion is
structural. -/
def b64ScaleDown : Nat → Nat → Nat → Int → Nat × Nat × Int
  | 0, n, d, e => (n, d, e)
  | fuel + 1, n, d, e =>
    if 9007199254740992 * d ≤ n then b64ScaleDown fuel n (d * 2) (e + 1) else (n, d, e)

/-- Double the numerator of `n / d` until the quotient reaches `2^52`,
tracking the binary exponent; fuel-bounded so the recursion is
structural. -/
def b64ScaleUp : Nat → Nat → Nat → Int → Nat × Nat × Int
  | 0, n, d, e => (n, d, e)
  | fuel + 1, n, d, e =>
    if n < 4503599627370496 * d then b64ScaleUp fuel (n * 2) d (e - 1) else (n, d, e)

/-- The IEEE-754 binary64 double nearest to `n / d` (for `d > 0`), rounding
half to even, returned as an exact numerator/denominator pair: normalize
the quotient into the mantissa range `[2^52, 2^53)` (the fuel covers far
beyond the double exponent range), round the mantissa to an integer there
and scale back.  Exact on the normal, non-overflowing double range, which
covers every count the progress computation can produce. -/
def roundB64 (n d : Nat) : Nat × Nat :=
  if n = 0 then (0, 1)
  else
    let p := b64ScaleDown 4800 n d 0
    let p2 := b64ScaleUp 4800 p.1 p.2.1 p.2.2
    let m := natRoundHalfEven p2.1 p2.2.1
    if 0 ≤ p2.2.2 then (m * 2 ^ p2.2.2.toNat, 1) else (m, 2 ^ (-p2.2.2).toNat)

/-- Python's float evaluation of `round((c / t) * 100)` for the nonnegative
numerators and positive denominators the program supplies: the true
division `c / t` correctly rounded to binary64, the product with the
exactly representable constant 100 correctly rounded to binary64 again,
and the resulting double rounded half-to-even to an integer by `round`. -/
def pyFloatPct (c t : Int) : Int :=
  let p1 := roundB64 c.toNat t.toNat
  let p2 := roundB64 (p1.1 * 100) p1.2
  (natRoundHalfEven p2.1 p2.2 : Int)

/-- The percentage expression `round((c / t) * 100) if t > 0 else 0`
(src/app/api/challenges.py lines 283-286, 350 and 372), with the rounding
performed on floats as Python performs it. -/
def pctRound (c t : Int) : Int :=
  if 0 < t then pyFloatPct c t else 0

/-- `get_active_habits_for_date` (src/app/api/challenges.py lines 288-291):
the habits whose normalized creation day is at most the given day. -/
def get_active_habits_for_date (habits : List Habit) (d : Int) : List Habit :=
  habits.filter (fun h => decide ((normalize_date h.created_at).day ≤ d))

/-- The per-day completed-entry tally: the code groups `all_entries` by
normalized date (lines 295-300) and sums the completed ones for the day
(lines 311, 328, 346); filtering the same list by the day key is the same
count. -/
def dayCompletedCount (es : List DailyEntry) (d : Int) : Int :=
  ((es.filter (fun e => decide ((normalize_date e.date).day = d) && e.completed)).length : Int)

/-- The perfect-day test the code applies at lines 314, 331 and 349:
`len(active_habits) > 0 and completed_count == len(active_habits)`. -/
def perfectDay (habits : List Habit) (es : List DailyEntry) (d : Int) : Bool :=
  decide (0 < ((get_active_habits_for_date habits d).length : Int)) &&
  decide (dayCompletedCount es d = ((get_active_habits_for_date habits d).length : Int))

/-- The consecutive days from `startD` to `todayD` inclusive (empty when
`todayD < startD`): the range of the forward while loop at lines 308-321. -/
def forwardDays (startD todayD : Int) : List Int :=
  (List.range (todayD + 1 - startD).toNat).map (fun k : Nat => startD + (k : Int))

/-- The forward streak scan (src/app/api/challenges.py lines 303-321): walk
the days in chronological order carrying `(temp_streak, longest_streak)`;
a perfect day increments `temp_streak` and updates the maximum, any other
day resets `temp_streak` to 0. -/
def longestLoop (p : Int → Bool) (startD todayD : Int) : Int :=
  ((forwardDays startD todayD).foldl
    (fun st d => if p d then (st.1 + 1, max st.2 (st.1 + 1)) else (0, st.2))
    ((0 : Int), (0 : Int))).2

/-- The backward streak scan (src/app/api/challenges.py lines 323-336):
starting at day `d` and walking down to `startD`, count consecutive days
satisfying `p`, stopping at the first failure.  Equivalently: the length of
the `takeWhile p` of the descending day list `[d, d-1, ..., startD]`. -/
def consecEnd (p : Int → Bool) (startD d : Int) : Int :=
  ((((List.range (d + 1 - startD).toNat).map (fun k : Nat => d - (k : Int))).takeWhile p).length : Int)

/-- `habit_days_active` (src/app/api/challenges.py lines 278-280 and
367-369): days since the habit's activation day, capped at `current_day`. -/
def habit_days_active (startD todayD current_day : Int) (h : Habit) : Int :=
  let habit_created := (normalize_date h.created_at).day
  let habit_start := max habit_created startD
  min ((todayD - habit_start) + 1) current_day

/-- The entry query of src/app/api/challenges.py lines 264-269: all entries
of the (active) habits whose date lies between the normalized start date and
the normalized today, inclusive.  The date bounds compare full datetimes
exactly as the SQL `>=`/`<=` on the `date` column does. -/
def queryEntries (habits : List Habit) (entries : List DailyEntry)
    (start_date today : PyDateTime) : List DailyEntry :=
  entries.filter (fun e =>
    (habits.map Habit.id).contains e.habit_id && start_date.dtle e.date && e.date.dtle today)

/-- The `total_possible_habits` accumulation loop
(src/app/api/challenges.py lines 274-281). -/
def totalPossible (habits : List Habit) (startD todayD current_day : Int) : Int :=
  habits.foldl (fun acc h => acc + max 0 (habit_days_active startD todayD current_day h)) 0

/-- One `DayProgress` of the last-7-days series (src/app/api/challenges.py
lines 345-358). -/
def mkDayProgress (habits : List Habit) (es : List DailyEntry) (d : Int) : DayProgress :=
  let completed_count := dayCompletedCount es d
  let total_count := ((get_active_habits_for_date habits d).length : Int)
  { date := d,
    completed_count := completed_count,
    total_count := total_count,
    is_perfect := perfectDay habits es d,
    completion_percentage := pctRound completed_count total_count }

/-- The last-7-days series (src/app/api/challenges.py lines 339-358): for
each of the days `todayD - 6, ..., todayD` in chronological order, skip it
when it lies before the challenge start, otherwise emit its `DayProgress`. -/
def last7Days (habits : List Habit) (es : List DailyEntry) (startD todayD : Int) :
    List DayProgress :=
  ((List.range 7).reverse.map (fun i : Nat => todayD - (i : Int))).filterMap
    (fun d => if d < startD then none else some (mkDayProgress habits es d))

/-- One `HabitProgress` entry (src/app/api/challenges.py lines 362-388). -/
def mkHabitProgress (iconOf : String → Option String) (all_entries : List DailyEntry)
    (startD todayD current_day : Int) (h : Habit) : HabitProgress :=
  let habit_entries := all_entries.filter (fun e => e.habit_id == h.id)
  let completed_count : Int := ((habit_entries.filter (fun e => e.completed)).length : Int)
  let habit_total_days := max 0 (habit_days_active startD todayD current_day h)
  { habit_id := h.id,
    habit_name := h.name,
    icon := h.template_id.bind iconOf,
    completed_count := completed_count,
    total_days := habit_total_days,
    completion_percentage := pctRound completed_count habit_total_days }

/-- The progress computation of `get_challenge_progress`
(src/app/api/challenges.py lines 229-404), after the ownership check: given
the challenge, its active habits (the query result of lines 230-233), the
entry table for the challenge and the current time, produce the report. -/
def getChallengeProgress (iconOf : String → Option String) (challenge : Challenge)
    (habits : List Habit) (entries : List DailyEntry) (now : PyDateTime) :
    ChallengeProgressResponse :=
  if habits.isEmpty then
    { challenge_id := challenge.id,
      start_date := challenge.start_date,
      end_date := challenge.end_date,
      current_day := 0,
      total_days := 30,
      days_elapsed := 0,
      total_habits_completed := 0,
      total_possible_habits := 0,
      overall_completion_percentage := 0,
      current_streak := 0,
      longest_streak := 0,
      last_7_days := [],
      habit_progress := [] }
  else
    let today := normalize_date now
    let start_date := normalize_date challenge.start_date
    let end_date := normalize_date challenge.end_date
    let days_elapsed := max 0 (today.subDays start_date)
    let current_day := min (days_elapsed + 1) 30
    let total_days := end_date.subDays start_date + 1
    let all_entries := queryEntries habits entries start_date today
    let total_habits_completed : Int :=
      ((all_entries.filter (fun e => e.completed)).length : Int)
    let total_possible_habits : Int :=
      totalPossible habits start_date.day today.day current_day
    let overall_completion_percentage :=
      pctRound total_habits_completed total_possible_habits
    let p := perfectDay habits all_entries
    let longest_streak := longestLoop p start_date.day today.day
    let current_streak := consecEnd p start_date.day (today.day - 1)
    { challenge_id := challenge.id,
      start_date := challenge.start_date,
      end_date := challenge.end_date,
      current_day := current_day,
      total_days := total_days,
      days_elapsed := days_elapsed,
      total_habits_completed := total_habits_completed,
      total_possible_habits := total_possible_habits,
      overall_completion_percentage := overall_completion_percentage,
      current_streak := current_streak,
      longest_streak := longest_streak,
      last_7_days := last7Days habits all_entries start_date.day today.day,
      habit_progress := habits.map
        (mkHabitProgress iconOf all_entries start_date.day today.day current_day) }

/-! ## Definitions taken from the spec's words, for comparison

These two do not embed code; they state what the spec says, so that the
code's behaviour can be compared against them. -/

/-- Modelled from the spec: "A day `d` is a perfect day iff: the
active-habit set for `d` is non-empty AND every active habit has an entry on
`d` with `completed = true`."  (The code's test is `perfectDay` above, a
count comparison.) -/
def specPerfectDay (habits : List Habit) (es : List DailyEntry) (d : Int) : Bool :=
  !(get_active_habits_for_date habits d).isEmpty &&
  (get_active_habits_for_date habits d).all (fun h =>
    es.any (fun e =>
      decide ((normalize_date e.date).day = d) && e.completed && (e.habit_id == h.id)))

/-- Modelled from the spec: "Rounding is standard round-half-up to nearest
integer", i.e. `floor(100 * c / t + 1/2)` for a positive denominator, else 0.
(The code's rounding is `pctRound` above.) -/
def specPctHalfUp (c t : Int) : Int :=
  if 0 < t then (2 * (100 * c) + t).fdiv (2 * t) else 0

/-! ## The division-instrumented variant

The same computation with the percentage divisions made explicitly fallible:
`divRound100E` is the float division `(c / t) * 100` rounded, raising
`ZeroDivisionError` exactly when the denominator is zero, and every guard of
the source (`... if total > 0 else 0`) is kept in place around it.  It is
the vehicle for the no-domain-error claim. -/

/-- Division with the Python `ZeroDivisionError` branch explicit. -/
def divRound100E (c t : Int) : Except String Int :=
  if t = 0 then Except.error "ZeroDivisionError" else Except.ok (pyFloatPct c t)

/-- The guarded percentage, fallible form of `pctRound`. -/
def pctRoundE (c t : Int) : Except String Int :=
  if 0 < t then divRound100E c t else Except.ok 0

/-- Fallible form of `mkDayProgress`. -/
def mkDayProgressE (habits : List Habit) (es : List DailyEntry) (d : Int) :
    Except String DayProgress := do
  let completed_count := dayCompletedCount es d
  let total_count := ((get_active_habits_for_date habits d).length : Int)
  let pct ← pctRoundE completed_count total_count
  pure { date := d,
         completed_count := completed_count,
         total_count := total_count,
         is_perfect := perfectDay habits es d,
         completion_percentage := pct }

/-- Fallible form of `last7Days`: the skipped days are filtered out, the
kept days are produced monadically in the same chronological order. -/
def last7DaysE (habits : List Habit) (es : List DailyEntry) (startD todayD : Int) :
    Except String (List DayProgress) :=
  (((List.range 7).reverse.map (fun i : Nat => todayD - (i : Int))).filter
    (fun d => !decide (d < startD))).mapM (mkDayProgressE habits es)

/-- Fallible form of `mkHabitProgress`. -/
def mkHabitProgressE (iconOf : String → Option String) (all_entries : List DailyEntry)
    (startD todayD current_day : Int) (h : Habit) : Except String HabitProgress := do
  let habit_entries := all_entries.filter (fun e => e.habit_id == h.id)
  let completed_count : Int := ((habit_entries.filter (fun e => e.completed)).length : Int)
  let habit_total_days := max 0 (habit_days_active startD todayD current_day h)
  let pct ← pctRoundE completed_count habit_total_days
  pure { habit_id := h.id,
         habit_name := h.name,
         icon := h.template_id.bind iconOf,
         completed_count := completed_count,
         total_days := habit_total_days,
         completion_percentage := pct }

/-- Fallible form of `getChallengeProgress`: identical control flow, with
every percentage going through `pctRoundE`. -/
def getChallengeProgressE (iconOf : String → Option String) (challenge : Challenge)
    (habits : List Habit) (entries : List DailyEntry) (now : PyDateTime) :
    Except String ChallengeProgressResponse :=
  if habits.isEmpty then
    Except.ok
      { challenge_id := challenge.id,
        start_date := challenge.start_date,
        end_date := challenge.end_date,
        current_day := 0,
        total_days := 30,
        days_elapsed := 0,
        total_habits_completed := 0,
        total_possible_habits := 0,
        overall_completion_percentage := 0,
        current_streak := 0,
        longest_streak := 0,
        last_7_days := [],
        habit_progress := [] }
  else
    let today := normalize_date now
    let start_date := normalize_date challenge.start_date
    let end_date := normalize_date challenge.end_date
    let days_elapsed := max 0 (today.subDays start_date)
    let current_day := min (days_elapsed + 1) 30
    let total_days := end_date.subDays start_date + 1
    let all_entries := queryEntries habits entries start_date today
    let total_habits_completed : Int :=
      ((all_entries.filter (fun e => e.completed)).length : Int)
    let total_possible_habits : Int :=
      totalPossible habits start_date.day today.day current_day
    let p := perfectDay habits all_entries
    let longest_streak := longestLoop p start_date.day today.day
    let current_streak := consecEnd p start_date.day (today.day - 1)
    do
      let overall_completion_percentage ←
        pctRoundE total_habits_completed total_possible_habits
      let last_7_days ← last7DaysE habits all_entries start_date.day today.day
      let habit_progress ← habits.mapM
        (mkHabitProgressE iconOf all_entries start_date.day today.day current_day)
      pure
        { challenge_id := challenge.id,
          start_date := challenge.start_date,
          end_date := challenge.end_date,
          current_day := current_day,
          total_days := total_days,
          days_elapsed := days_elapsed,
          total_habits_completed := total_habits_completed,
          total_possible_habits := total_possible_habits,
          overall_completion_percentage := overall_completion_percentage,
          current_streak := current_streak,
          longest_streak := longest_streak,
          last_7_days := last_7_days,
          habit_progress := habit_progress }

/-! ## Concrete inputs used by witnesses, counterexamples and scenarios -/

/-- An icon table with no templates (the lookup is external; the claims do
not depend on it). -/
def iconNone : String → Option String := fun _ => none

/-- A challenge created through `create_challenge`, starting on day 0. -/
def challengeA : Challenge := create_challenge "ch" ⟨0, 0⟩

/-- A habit created on day 0 (at 08:20). -/
def habitA : Habit := ⟨"a", "Habit A", ⟨0, 30000⟩, none⟩

/-- A second habit created on day 0 (at 11:06). -/
def habitB : Habit := ⟨"b", "Habit B", ⟨0, 40000⟩, none⟩

/-- A habit created on day 2, mid-challenge. -/
def habitLate : Habit := ⟨"b", "Late habit", ⟨2, 0⟩, none⟩

/-- A completed entry for a habit on a day (entry dates are stored
normalized by the write path). -/
def entryFor (hid : String) (d : Int) : DailyEntry := ⟨hid, ⟨d, 0⟩, true, none⟩

/-- Scenario A current time: day 15, at 02:00. -/
def nowA : PyDateTime := ⟨15, 7200⟩

/-- Scenario A entries: both habits completed on the last 3 days before
day 15. -/
def entriesA : List DailyEntry :=
  [entryFor "a" 12, entryFor "b" 12, entryFor "a" 13, entryFor "b" 13,
   entryFor "a" 14, entryFor "b" 14]

/-- A single completed entry for the late habit, backdated to day 0, before
that habit's creation day (the entry write path allows any date from the
challenge start on, without comparing against the habit's creation date). -/
def entriesBackdated : List DailyEntry := [entryFor "b" 0]

/-- One completed entry for habit A on day 0. -/
def entriesOne : List DailyEntry := [entryFor "a" 0]

/-! ## Basic lemmas about the date model and list folds -/

/-- Day difference of two midnight datetimes. -/
theorem subDays_norm (a b : Int) :
    PyDateTime.subDays ⟨a, 0⟩ ⟨b, 0⟩ = a - b := by
  simp only [PyDateTime.subDays]
  norm_num

/-- Folding `acc + f h` over a list is the sum of the mapped list. -/
theorem foldl_add_map_sum (f : Habit → Int) (l : List Habit) (a : Int) :
    l.foldl (fun acc h => acc + f h) a = a + (l.map f).sum := by
  induction l generalizing a with
  | nil => simp
  | cons x xs ih => simp [ih, add_assoc]

section ConsProjections

variable (iconOf : String → Option String) (challenge : Challenge) (h : Habit)
  (hs : List Habit) (entries : List DailyEntry) (now : PyDateTime)

/-- `days_elapsed` in the nonempty-habit branch (line 260). -/
theorem days_elapsed_cons :
    (getChallengeProgress iconOf challenge (h :: hs) entries now).days_elapsed =
      max 0 ((normalize_date now).subDays (normalize_date challenge.start_date)) := rfl

/-- `current_day` in the nonempty-habit branch (line 261). -/
theorem current_day_cons :
    (getChallengeProgress iconOf challenge (h :: hs) entries now).current_day =
      min (max 0 ((normalize_date now).subDays (normalize_date challenge.start_date)) + 1) 30 := rfl

/-- `total_days` in the nonempty-habit branch (line 262). -/
theorem total_days_cons :
    (getChallengeProgress iconOf challenge (h :: hs) entries now).total_days =
      (normalize_date challenge.end_date).subDays (normalize_date challenge.start_date) + 1 := rfl

/-- `total_habits_completed` in the nonempty-habit branch (line 273). -/
theorem total_habits_completed_cons :
    (getChallengeProgress iconOf challenge (h :: hs) entries now).total_habits_completed =
      (((queryEntries (h :: hs) entries (normalize_date challenge.start_date)
          (normalize_date now)).filter (fun e => e.completed)).length : Int) := rfl

/-- `total_possible_habits` in the nonempty-habit branch (lines 274-281). -/
theorem total_possible_habits_cons :
    (getChallengeProgress iconOf challenge (h :: hs) entries now).total_possible_habits =
      totalPossible (h :: hs) (normalize_date challenge.start_date).day
        (normalize_date now).day
        (getChallengeProgress iconOf challenge (h :: hs) entries now).current_day := rfl

/-- `overall_completion_percentage` in the nonempty-habit branch
(lines 283-286). -/
theorem overall_percentage_cons :
    (getChallengeProgress iconOf challenge (h :: hs) entries now).overall_completion_percentage =
      pctRound
        (getChallengeProgress iconOf challenge (h :: hs) entries now).total_habits_completed
        (getChallengeProgress iconOf challenge (h :: hs) entries now).total_possible_habits := rfl

/-- `longest_streak` in the nonempty-habit branch (lines 303-321). -/
theorem longest_streak_cons :
    (getChallengeProgress iconOf challenge (h :: hs) entries now).longest_streak =
      longestLoop
        (perfectDay (h :: hs) (queryEntries (h :: hs) entries
          (normalize_date challenge.start_date) (normalize_date now)))
        (normalize_date challenge.start_date).day (normalize_date now).day := rfl

/-- `current_streak` in the nonempty-habit branch (lines 323-336). -/
theorem current_streak_cons :
    (getChallengeProgress iconOf challenge (h :: hs) entries now).current_streak =
      consecEnd
        (perfectDay (h :: hs) (queryEntries (h :: hs) entries
          (normalize_date challenge.start_date) (normalize_date now)))
        (normalize_date challenge.start_date).day ((normalize_date now).day - 1) := rfl

/-- `last_7_days` in the nonempty-habit branch (lines 339-358). -/
theorem last_7_days_cons :
    (getChallengeProgress iconOf challenge (h :: hs) entries now).last_7_days =
      last7Days (h :: hs) (queryEntries (h :: hs) entries
        (normalize_date challenge.start_date) (normalize_date now))
        (normalize_date challenge.start_date).day (normalize_date now).day := rfl

/-- `habit_progress` in the nonempty-habit branch (lines 360-388). -/
theorem habit_progress_cons :
    (getChallengeProgress iconOf challenge (h :: hs) entries now).habit_progress =
      (h :: hs).map (mkHabitProgress iconOf
        (queryEntries (h :: hs) entries (normalize_date challenge.start_date)
          (normalize_date now))
        (normalize_date challenge.start_date).day (normalize_date now).day
        (getChallengeProgress iconOf challenge (h :: hs) entries now).current_day) := rfl

end ConsProjections

/-! ## C7: the zero-active-habit short circuit -/

/-- C7: for every challenge with zero active habits, the progress
computation short-circuits and returns the report with `current_day = 0`,
`total_days = 30`, `days_elapsed = 0`, all counts and percentages 0, both
streaks 0 and empty last-7-days and per-habit lists. -/
theorem empty_habits_short_circuit (iconOf : String → Option String)
    (challenge : Challenge) (entries : List DailyEntry) (now : PyDateTime) :
    getChallengeProgress iconOf challenge [] entries now =
      { challenge_id := challenge.id,
        start_date := challenge.start_date,
        end_date := challenge.end_date,
        current_day := 0,
        total_days := 30,
        days_elapsed := 0,
        total_habits_completed := 0,
        total_possible_habits := 0,
        overall_completion_percentage := 0,
        current_streak := 0,
        longest_streak := 0,
        last_7_days := [],
        habit_progress := [] } := by
  rfl

/-- `subDays` of two normalized datetimes is the day difference. -/
theorem subDays_normalize (a b : PyDateTime) :
    (normalize_date a).subDays (normalize_date b) = a.day - b.day :=
  subDays_norm a.day b.day

/-- The `total_possible_habits` loop is the sum of the per-habit counts. -/
theorem totalPossible_eq_sum (habits : List Habit) (s t c : Int) :
    totalPossible habits s t c =
      (habits.map (fun h => max 0 (habit_days_active s t c h))).sum := by
  unfold totalPossible
  rw [foldl_add_map_sum]
  simp

/-- Before the challenge start there are no forward-scan days. -/
theorem forwardDays_eq_nil (s t : Int) (h : t < s) : forwardDays s t = [] := by
  unfold forwardDays
  have h0 : (t + 1 - s).toNat = 0 := by omega
  rw [h0]
  rfl

/-- The forward scan over no days reports a longest streak of 0. -/
theorem longestLoop_eq_zero (p : Int → Bool) (s t : Int) (h : t < s) :
    longestLoop p s t = 0 := by
  unfold longestLoop
  rw [forwardDays_eq_nil s t h]
  rfl

/-- The backward scan starting below the challenge start counts 0 days. -/
theorem consecEnd_eq_zero_of_lt (p : Int → Bool) (s d : Int) (h : d < s) :
    consecEnd p s d = 0 := by
  unfold consecEnd
  have h0 : (d + 1 - s).toNat = 0 := by omega
  rw [h0]
  rfl

/-- When today is before the challenge start every last-7-days slot is
skipped. -/
theorem last7Days_eq_nil (habits : List Habit) (es : List DailyEntry) (s t : Int)
    (h : t < s) : last7Days habits es s t = [] := by
  unfold last7Days
  rw [List.filterMap_eq_nil_iff]
  intro d hd
  rcases List.mem_map.mp hd with ⟨i, _, rfl⟩
  have hlt : t - (i : Int) < s := by omega
  simp [hlt]

/-- A habit accumulates a nonpositive day count when today is before the
challenge start. -/
theorem habit_days_active_nonpos (s t c : Int) (hb : Habit) (h : t < s) :
    habit_days_active s t c hb ≤ 0 := by
  unfold habit_days_active
  have h2 : s ≤ max (normalize_date hb.created_at).day s := le_max_right _ _
  have h3 : (t - max (normalize_date hb.created_at).day s) + 1 ≤ 0 := by omega
  exact le_trans (min_le_left _ _) h3

/-! ## C8: inclusive total_days, and 31 for created challenges -/

/-- C8: with at least one active habit the reported `total_days` is the
inclusive day count `(end_date - start_date in days) + 1`, and a challenge
built by `create_challenge` has `end_date = start_date + 30 days`, so its
report has `total_days = 31`. -/
theorem total_days_inclusive_and_created (iconOf : String → Option String)
    (challenge : Challenge) (habits : List Habit) (entries : List DailyEntry)
    (now : PyDateTime) (cid : String) (s : PyDateTime) (hne : habits ≠ []) :
    (getChallengeProgress iconOf challenge habits entries now).total_days =
        challenge.end_date.day - challenge.start_date.day + 1 ∧
    (getChallengeProgress iconOf (create_challenge cid s) habits entries now).total_days
        = 31 := by
  obtain ⟨h, hs, rfl⟩ := List.exists_cons_of_ne_nil hne
  constructor
  · rw [total_days_cons, subDays_normalize]
  · rw [total_days_cons, subDays_normalize]
    simp [create_challenge]

/-- Witness for C8 at a concrete created challenge with one habit. -/
theorem total_days_inclusive_and_created_witness :
    (getChallengeProgress iconNone challengeA [habitA] [] ⟨9, 0⟩).total_days = 31 :=
  ((total_days_inclusive_and_created iconNone challengeA [habitA] [] ⟨9, 0⟩ "ch" ⟨0, 0⟩
    (List.cons_ne_nil _ _)).1).trans (by decide)

/-! ## C10: a challenge that has not started yet -/

/-- C10: with at least one active habit and the (normalized) start date
strictly after today, the report has `days_elapsed = 0`, `current_day = 1`,
`total_possible_habits = 0`, `overall_completion_percentage = 0`, both
streaks 0 and an empty last-7-days list. -/
theorem not_started_report (iconOf : String → Option String) (challenge : Challenge)
    (habits : List Habit) (entries : List DailyEntry) (now : PyDateTime)
    (hne : habits ≠ [])
    (hlt : (normalize_date now).day < (normalize_date challenge.start_date).day) :
    (getChallengeProgress iconOf challenge habits entries now).days_elapsed = 0 ∧
    (getChallengeProgress iconOf challenge habits entries now).current_day = 1 ∧
    (getChallengeProgress iconOf challenge habits entries now).total_possible_habits = 0 ∧
    (getChallengeProgress iconOf challenge habits entries now).overall_completion_percentage
        = 0 ∧
    (getChallengeProgress iconOf challenge habits entries now).current_streak = 0 ∧
    (getChallengeProgress iconOf challenge habits entries now).longest_streak = 0 ∧
    (getChallengeProgress iconOf challenge habits entries now).last_7_days = [] := by
  obtain ⟨h, hs, rfl⟩ := List.exists_cons_of_ne_nil hne
  have hlt' : now.day < challenge.start_date.day := hlt
  have htp : (getChallengeProgress iconOf challenge (h :: hs) entries now).total_possible_habits
      = 0 := by
    rw [total_possible_habits_cons, totalPossible_eq_sum]
    apply List.sum_eq_zero
    intro x hx
    simp only [List.mem_map] at hx
    obtain ⟨hb, _, rfl⟩ := hx
    exact max_eq_left (habit_days_active_nonpos _ _ _ hb hlt')
  refine ⟨?_, ?_, htp, ?_, ?_, ?_, ?_⟩
  · rw [days_elapsed_cons, subDays_normalize]
    omega
  · rw [current_day_cons, subDays_normalize]
    omega
  · rw [overall_percentage_cons, htp]
    simp [pctRound]
  · rw [current_streak_cons]
    exact consecEnd_eq_zero_of_lt _ _ _ (by omega)
  · rw [longest_streak_cons]
    exact longestLoop_eq_zero _ _ _ (by omega)
  · rw [last_7_days_cons]
    exact last7Days_eq_nil _ _ _ _ (by omega)

/-- Witness for C10: one habit, challenge starting 3 days in the future. -/
theorem not_started_report_witness :
    (getChallengeProgress iconNone challengeA [habitA] [] ⟨-3, 500⟩).days_elapsed = 0 ∧
    (getChallengeProgress iconNone challengeA [habitA] [] ⟨-3, 500⟩).current_day = 1 ∧
    (getChallengeProgress iconNone challengeA [habitA] [] ⟨-3, 500⟩).total_possible_habits
        = 0 ∧
    (getChallengeProgress iconNone challengeA [habitA] []
        ⟨-3, 500⟩).overall_completion_percentage = 0 ∧
    (getChallengeProgress iconNone challengeA [habitA] [] ⟨-3, 500⟩).current_streak = 0 ∧
    (getChallengeProgress iconNone challengeA [habitA] [] ⟨-3, 500⟩).longest_streak = 0 ∧
    (getChallengeProgress iconNone challengeA [habitA] [] ⟨-3, 500⟩).last_7_days = [] :=
  not_started_report iconNone challengeA [habitA] [] ⟨-3, 500⟩
    (List.cons_ne_nil _ _) (by decide)

/-! ## C3: the total_possible_habits formula -/

/-- C3: with at least one active habit, `total_possible_habits` is the sum
over the habits of `min((today - activation) + 1, current_day)` floored at 0
per habit, where the activation day is `max(normalize(created_at),
challenge.start_date)`; so a habit created mid-challenge contributes no
habit-days before its activation date. -/
theorem total_possible_habits_formula (iconOf : String → Option String)
    (challenge : Challenge) (habits : List Habit) (entries : List DailyEntry)
    (now : PyDateTime) (hne : habits ≠ []) :
    (getChallengeProgress iconOf challenge habits entries now).total_possible_habits =
      (habits.map (fun h => max 0 (min
        ((normalize_date now).day -
          max (normalize_date h.created_at).day (normalize_date challenge.start_date).day + 1)
        ((getChallengeProgress iconOf challenge habits entries now).current_day)))).sum := by
  obtain ⟨h, hs, rfl⟩ := List.exists_cons_of_ne_nil hne
  rw [total_possible_habits_cons, totalPossible_eq_sum]
  rfl

/-- Witness for C3: a habit created on day 0 and one created on day 2,
evaluated on day 9; the late habit contributes 8 habit-days, not 10. -/
theorem total_possible_habits_formula_witness :
    (getChallengeProgress iconNone challengeA [habitA, habitLate] [] ⟨9, 0⟩).total_possible_habits
      = 18 :=
  (total_possible_habits_formula iconNone challengeA [habitA, habitLate] [] ⟨9, 0⟩
    (List.cons_ne_nil _ _)).trans (by decide)

/-! ## The backward-count recursion and its properties -/

/-- The backward count is a nonnegative integer. -/
theorem consecEnd_nonneg (p : Int → Bool) (s d : Int) : 0 ≤ consecEnd p s d :=
  Int.natCast_nonneg _

/-- Unfolding one step of the backward scan: a day in range that satisfies
`p` contributes 1 plus the count from the previous day; a failing day or a
day before the start contributes 0. -/
theorem consecEnd_rec (p : Int → Bool) (s d : Int) :
    consecEnd p s d =
      if s ≤ d then (if p d then consecEnd p s (d - 1) + 1 else 0) else 0 := by
  by_cases hsd : s ≤ d
  · rw [if_pos hsd]
    have hn : (d + 1 - s).toNat = (d - s).toNat + 1 := by omega
    have hshift : (fun k : Nat => d - ((k + 1 : Nat) : Int)) =
        (fun k : Nat => (d - 1) - (k : Int)) := by
      funext k
      push_cast
      ring
    unfold consecEnd
    rw [hn, List.range_succ_eq_map]
    have hn2 : (d - 1 + 1 - s).toNat = (d - s).toNat := by omega
    rw [hn2]
    simp only [List.map_cons, List.map_map, Function.comp_def, Nat.succ_eq_add_one]
    rw [List.takeWhile_cons]
    by_cases hp : p d
    · simp only [Nat.cast_zero, sub_zero, hp, if_true, List.length_cons]
      rw [hshift]
      push_cast
      ring
    · simp [hp, Nat.cast_zero, sub_zero]
  · rw [if_neg hsd]
    exact consecEnd_eq_zero_of_lt p s d (by omega)

/-- Every day inside the backward-counted run is in range and satisfies
`p`. -/
theorem consecEnd_all (p : Int → Bool) (s : Int) :
    ∀ (k : Nat) (d : Int), (k : Int) < consecEnd p s d →
      s ≤ d - k ∧ p (d - k) = true := by
  intro k
  induction k with
  | zero =>
    intro d hk
    rw [consecEnd_rec] at hk
    by_cases hsd : s ≤ d
    · rw [if_pos hsd] at hk
      by_cases hp : p d
      · simp only [Nat.cast_zero, sub_zero]
        exact ⟨hsd, hp⟩
      · simp [hp] at hk
    · simp [hsd] at hk
  | succ k ih =>
    intro d hk
    rw [consecEnd_rec] at hk
    by_cases hsd : s ≤ d
    · rw [if_pos hsd] at hk
      by_cases hp : p d
      · rw [if_pos hp] at hk
        have hk2 : (k : Int) < consecEnd p s (d - 1) := by push_cast at hk ⊢; omega
        have := ih (d - 1) hk2
        constructor
        · push_cast
          omega
        · have he : d - ((k : Int) + 1) = d - 1 - k := by ring
          push_cast
          rw [he]
          exact this.2
      · rw [if_neg hp] at hk
        exact absurd hk (by push_cast; omega)
    · rw [if_neg hsd] at hk
      exact absurd hk (by push_cast; omega)

/-- The backward scan stops for a reason: the day right past the counted
run either fails `p` or lies before the start. -/
theorem consecEnd_stop_bounded (p : Int → Bool) (s : Int) :
    ∀ (n : Nat) (d : Int), (d + 1 - s).toNat ≤ n →
      p (d - consecEnd p s d) = false ∨ d - consecEnd p s d < s := by
  intro n
  induction n with
  | zero =>
    intro d hd
    have hds : d < s := by omega
    rw [consecEnd_eq_zero_of_lt p s d hds]
    right
    omega
  | succ n ih =>
    intro d hd
    rw [consecEnd_rec]
    by_cases hsd : s ≤ d
    · rw [if_pos hsd]
      by_cases hp : p d
      · rw [if_pos hp]
        have he : d - (consecEnd p s (d - 1) + 1) = (d - 1) - consecEnd p s (d - 1) := by
          ring
        rw [he]
        exact ih (d - 1) (by omega)
      · rw [if_neg hp]
        left
        simpa using hp
    · rw [if_neg hsd]
      right
      omega

/-- The day right past the backward-counted run either fails `p` or lies
before the start. -/
theorem consecEnd_stop (p : Int → Bool) (s d : Int) :
    p (d - consecEnd p s d) = false ∨ d - consecEnd p s d < s :=
  consecEnd_stop_bounded p s (d + 1 - s).toNat d le_rfl

/-! ## The forward scan computes the maximum backward count -/

/-- Right fold by `max` over integers starting at 0 is nonnegative. -/
theorem foldrMax_nonneg (l : List Int) : 0 ≤ l.foldr max 0 := by
  induction l with
  | nil => exact le_refl 0
  | cons a l ih => exact le_trans ih (le_max_right a _)

/-- Every member is at most the right fold by `max` starting at 0. -/
theorem le_foldrMax_of_mem {a : Int} {l : List Int} (h : a ∈ l) :
    a ≤ l.foldr max 0 := by
  induction l with
  | nil => cases h
  | cons b l ih =>
    rcases List.mem_cons.mp h with rfl | h2
    · exact le_max_left _ _
    · exact le_trans (ih h2) (le_max_right _ _)

/-- A fold by `max` over a list of zeros is zero. -/
theorem foldrMax_eq_zero {l : List Int} (h : ∀ a ∈ l, a = 0) :
    l.foldr max 0 = 0 := by
  induction l with
  | nil => rfl
  | cons b l ih =>
    rw [List.foldr_cons, h b (List.mem_cons_self b l),
      ih fun a ha => h a (List.mem_cons_of_mem b ha)]
    simp

/-- Loop invariant of the forward streak scan: starting at day `c` with
`temp_streak` equal to the backward count ending at `c - 1` and a
nonnegative running maximum `long`, the loop returns the maximum of `long`
and all backward counts of the remaining days. -/
theorem longestLoop_invariant (p : Int → Bool) (s : Int) :
    ∀ (n : Nat) (c temp long : Int), s ≤ c → temp = consecEnd p s (c - 1) → 0 ≤ long →
      (((List.range n).map (fun k : Nat => c + (k : Int))).foldl
        (fun st d => if p d then (st.1 + 1, max st.2 (st.1 + 1)) else (0, st.2))
        (temp, long)).2
      = max long ((((List.range n).map (fun k : Nat => c + (k : Int))).map
          (fun d => consecEnd p s d)).foldr max 0) := by
  intro n
  induction n with
  | zero =>
    intro c temp long _ _ hlong
    simp [max_eq_left hlong]
  | succ n ih =>
    intro c temp long hsc htemp hlong
    have hlist : ((List.range n).map Nat.succ).map (fun k : Nat => c + (k : Int)) =
        (List.range n).map (fun k : Nat => (c + 1) + (k : Int)) := by
      rw [List.map_map]
      congr 1
      funext k
      simp only [Function.comp_apply, Nat.succ_eq_add_one]
      push_cast
      ring
    rw [List.range_succ_eq_map, List.map_cons, hlist]
    simp only [Nat.cast_zero, add_zero, List.foldl_cons, List.map_cons, List.foldr_cons]
    have hcC : consecEnd p s c = if p c then temp + 1 else 0 := by
      rw [consecEnd_rec, if_pos hsc, htemp]
    have hc1 : c + 1 - 1 = c := by ring
    by_cases hp : p c
    · rw [if_pos hp]
      have h1 : temp + 1 = consecEnd p s (c + 1 - 1) := by
        rw [hc1, hcC, if_pos hp]
      rw [ih (c + 1) (temp + 1) (max long (temp + 1)) (by omega) h1
        (le_trans hlong (le_max_left _ _))]
      rw [hcC, if_pos hp, max_assoc]
    · rw [if_neg hp]
      have h1 : (0 : Int) = consecEnd p s (c + 1 - 1) := by
        rw [hc1, hcC, if_neg hp]
      rw [ih (c + 1) 0 long (by omega) h1 hlong]
      rw [hcC, if_neg hp]
      have h0 : (0 : Int) ≤ (((List.range n).map (fun k : Nat => (c + 1) + (k : Int))).map
          (fun d => consecEnd p s d)).foldr max 0 := foldrMax_nonneg _
      rw [max_eq_right h0]

/-- The forward scan's `longest_streak` is the maximum over all days from
`s` to `t` of the backward count of consecutive `p`-days ending there. -/
theorem longestLoop_eq_max (p : Int → Bool) (s t : Int) :
    longestLoop p s t =
      ((forwardDays s t).map (fun d => consecEnd p s d)).foldr max 0 := by
  unfold longestLoop forwardDays
  rw [longestLoop_invariant p s ((t + 1 - s).toNat) s 0 0 le_rfl
    (consecEnd_eq_zero_of_lt p s (s - 1) (by omega)).symm le_rfl]
  exact max_eq_right (foldrMax_nonneg _)

/-- With no habits no day is ever perfect. -/
theorem perfectDay_nil (es : List DailyEntry) (d : Int) :
    perfectDay [] es d = false := rfl

/-- The backward count of an always-false predicate is 0. -/
theorem consecEnd_of_false (p : Int → Bool) (s d : Int) (hp : ∀ x, p x = false) :
    consecEnd p s d = 0 := by
  unfold consecEnd
  cases hL : (List.range (d + 1 - s).toNat).map (fun k : Nat => d - (k : Int)) with
  | nil => rfl
  | cons a l => rw [List.takeWhile_cons, hp a]; rfl

/-! ## C5: longest_streak is the maximum run of perfect days -/

/-- C5: `longest_streak` is the maximum, over every day `d` scanned forward
from the challenge start through today, of the number of consecutive
perfect days ending at `d` — the largest value the increment/reset counter
of the forward scan ever reaches. -/
theorem longest_streak_max_run (iconOf : String → Option String) (challenge : Challenge)
    (habits : List Habit) (entries : List DailyEntry) (now : PyDateTime) :
    (getChallengeProgress iconOf challenge habits entries now).longest_streak =
      ((forwardDays (normalize_date challenge.start_date).day (normalize_date now).day).map
        (fun d => consecEnd
          (perfectDay habits (queryEntries habits entries (normalize_date challenge.start_date)
            (normalize_date now)))
          (normalize_date challenge.start_date).day d)).foldr max 0 := by
  cases habits with
  | nil =>
    have h0 : (getChallengeProgress iconOf challenge [] entries now).longest_streak = 0 := rfl
    rw [h0]
    symm
    apply foldrMax_eq_zero
    intro a ha
    rcases List.mem_map.mp ha with ⟨d, _, rfl⟩
    exact consecEnd_of_false _ _ _ (fun x => perfectDay_nil _ x)
  | cons h hs =>
    rw [longest_streak_cons, longestLoop_eq_max]

/-! ## C4: current_streak scans backward from yesterday -/

/-- C4: every day counted by `current_streak` lies between the challenge
start and yesterday and is perfect (scanning backward from today minus one,
today excluded); the day right past the counted run is either non-perfect
or before the start; and in Scenario A (challenge started 15 days ago, two
active habits, the last 3 days before today fully completed for both) the
current streak is 3. -/
theorem current_streak_backward_scan :
    (∀ (iconOf : String → Option String) (challenge : Challenge) (habits : List Habit)
        (entries : List DailyEntry) (now : PyDateTime) (k : Nat),
        (k : Int) < (getChallengeProgress iconOf challenge habits entries now).current_streak →
          (normalize_date challenge.start_date).day ≤ (normalize_date now).day - 1 - k ∧
          perfectDay habits
            (queryEntries habits entries (normalize_date challenge.start_date)
              (normalize_date now)) ((normalize_date now).day - 1 - k) = true) ∧
    (∀ (iconOf : String → Option String) (challenge : Challenge) (habits : List Habit)
        (entries : List DailyEntry) (now : PyDateTime),
        perfectDay habits
          (queryEntries habits entries (normalize_date challenge.start_date)
            (normalize_date now))
          ((normalize_date now).day - 1 -
            (getChallengeProgress iconOf challenge habits entries now).current_streak)
          = false ∨
        (normalize_date now).day - 1 -
            (getChallengeProgress iconOf challenge habits entries now).current_streak <
          (normalize_date challenge.start_date).day) ∧
    (getChallengeProgress iconNone challengeA [habitA, habitB] entriesA nowA).current_streak
      = 3 := by
  refine ⟨?_, ?_, ?_⟩
  · intro iconOf challenge habits entries now k hk
    cases habits with
    | nil =>
      rw [show (getChallengeProgress iconOf challenge [] entries now).current_streak = 0
        from rfl] at hk
      exact absurd hk (by omega)
    | cons h hs =>
      rw [current_streak_cons] at hk
      exact consecEnd_all _ _ k _ hk
  · intro iconOf challenge habits entries now
    cases habits with
    | nil =>
      rw [show (getChallengeProgress iconOf challenge [] entries now).current_streak = 0
        from rfl, sub_zero]
      left
      exact perfectDay_nil _ _
    | cons h hs =>
      rw [current_streak_cons]
      exact consecEnd_stop _ _ _
  · rfl

/-! ## C6: current_streak never exceeds longest_streak -/

/-- C6: for every input, the reported `current_streak` is at most the
reported `longest_streak`. -/
theorem current_streak_le_longest (iconOf : String → Option String) (challenge : Challenge)
    (habits : List Habit) (entries : List DailyEntry) (now : PyDateTime) :
    (getChallengeProgress iconOf challenge habits entries now).current_streak ≤
      (getChallengeProgress iconOf challenge habits entries now).longest_streak := by
  cases habits with
  | nil => exact le_rfl
  | cons h hs =>
    rw [current_streak_cons, longest_streak_cons, longestLoop_eq_max]
    by_cases hst : (normalize_date challenge.start_date).day ≤ (normalize_date now).day - 1
    · apply le_foldrMax_of_mem
      apply List.mem_map_of_mem
      unfold forwardDays
      apply List.mem_map.mpr
      refine ⟨((normalize_date now).day - 1 - (normalize_date challenge.start_date).day).toNat,
        List.mem_range.mpr (by omega), ?_⟩
      omega
    · rw [consecEnd_eq_zero_of_lt _ _ _ (by omega)]
      exact foldrMax_nonneg _

/-! ## C2: the rounding of completion percentages -/

set_option maxRecDepth 20000 in
/-- Counterexample to C2 as stated: with one habit active for 8 days and 1
completed entry, the per-habit percentage is exactly 12.5 percent and the
report says 12 — Python's `round` takes the exact half to the even
neighbour — while round-half-up, which the claim asserts, would give 13. -/
theorem round_half_up_counterexample :
    (getChallengeProgress iconNone challengeA [habitA] entriesOne
        ⟨7, 0⟩).habit_progress.map HabitProgress.completion_percentage = [12] ∧
    specPctHalfUp 1 8 = 13 := by
  constructor
  · rfl
  · rfl

set_option maxRecDepth 20000 in
/-- C2 (amended): every completion percentage in the report — overall,
per-day in `last_7_days`, per-habit — equals `pctRound` of its numerator
and denominator: Python's `round` (half to even) of the binary64 float
evaluation of `(completed / possible) * 100` for a positive denominator
and 0 otherwise.  `(3,4)` gives 75 and `(1,3)` gives 33; the binary-exact
half `(1,8)` (12.5) gives 12, to even rather than up; and `(23,40)` gives
57, because the float product is just below 57.5. -/
theorem completion_percentages_round (iconOf : String → Option String)
    (challenge : Challenge) (habits : List Habit) (entries : List DailyEntry)
    (now : PyDateTime) :
    ((getChallengeProgress iconOf challenge habits entries now).overall_completion_percentage =
      pctRound (getChallengeProgress iconOf challenge habits entries now).total_habits_completed
        (getChallengeProgress iconOf challenge habits entries now).total_possible_habits) ∧
    (∀ dp ∈ (getChallengeProgress iconOf challenge habits entries now).last_7_days,
      dp.completion_percentage = pctRound dp.completed_count dp.total_count) ∧
    (∀ hp ∈ (getChallengeProgress iconOf challenge habits entries now).habit_progress,
      hp.completion_percentage = pctRound hp.completed_count hp.total_days) ∧
    pctRound 3 4 = 75 ∧ pctRound 1 3 = 33 ∧ pctRound 1 8 = 12 ∧ pctRound 23 40 = 57 := by
  refine ⟨?_, ?_, ?_, by decide, by decide, by decide, by decide⟩
  · cases habits with
    | nil => rfl
    | cons h hs => rw [overall_percentage_cons]
  · intro dp hdp
    cases habits with
    | nil => cases hdp
    | cons h hs =>
      rw [last_7_days_cons] at hdp
      unfold last7Days at hdp
      rcases List.mem_filterMap.mp hdp with ⟨d, _, hd⟩
      by_cases hds : d < (normalize_date challenge.start_date).day
      · rw [if_pos hds] at hd
        cases hd
      · rw [if_neg hds] at hd
        cases hd
        rfl
  · intro hp hhp
    cases habits with
    | nil => cases hhp
    | cons h hs =>
      rw [habit_progress_cons] at hhp
      rcases List.mem_map.mp hhp with ⟨hb, _, rfl⟩
      rfl

/-! ## C9: the division guards make the fallible variant total -/

/-- Binding a success is application (the `Except` monad's bind). -/
theorem ok_bind {α β : Type} (x : α) (f : α → Except String β) :
    (Except.ok x >>= f) = f x := rfl

/-- The guarded percentage never takes the `ZeroDivisionError` branch. -/
theorem pctRoundE_ok (c t : Int) : pctRoundE c t = Except.ok (pctRound c t) := by
  unfold pctRoundE divRound100E pctRound
  by_cases h : 0 < t
  · rw [if_pos h, if_pos h, if_neg (by omega)]
  · rw [if_neg h, if_neg h]

/-- The fallible day progress always succeeds, with the pure value. -/
theorem mkDayProgressE_ok (habits : List Habit) (es : List DailyEntry) (d : Int) :
    mkDayProgressE habits es d = Except.ok (mkDayProgress habits es d) := by
  unfold mkDayProgressE mkDayProgress
  simp only [pctRoundE_ok, ok_bind]
  rfl

/-- The fallible habit progress always succeeds, with the pure value. -/
theorem mkHabitProgressE_ok (iconOf : String → Option String) (all_entries : List DailyEntry)
    (startD todayD current_day : Int) (h : Habit) :
    mkHabitProgressE iconOf all_entries startD todayD current_day h =
      Except.ok (mkHabitProgress iconOf all_entries startD todayD current_day h) := by
  unfold mkHabitProgressE mkHabitProgress
  simp only [pctRoundE_ok, ok_bind]
  rfl

/-- `mapM` of a function that always succeeds is `ok` of the map. -/
theorem mapM_ok {α β : Type} (f : α → Except String β) (g : α → β)
    (hfg : ∀ a, f a = Except.ok (g a)) : ∀ l : List α, l.mapM f = Except.ok (l.map g) := by
  intro l
  induction l with
  | nil => rfl
  | cons a l ih =>
    rw [List.mapM_cons, hfg a, ok_bind, ih, ok_bind]
    rfl

/-- Skip-or-emit over a day list is a map over the filtered list. -/
theorem filterMap_ite_eq_map_filter (s : Int) (f : Int → DayProgress) (l : List Int) :
    l.filterMap (fun d => if d < s then none else some (f d)) =
      (l.filter (fun d => !decide (d < s))).map f := by
  induction l with
  | nil => rfl
  | cons a l ih =>
    by_cases h : a < s
    · simp [List.filterMap_cons, List.filter_cons, h, ih]
    · simp [List.filterMap_cons, List.filter_cons, h, ih]

/-- The fallible last-7-days series always succeeds, with the pure value. -/
theorem last7DaysE_ok (habits : List Habit) (es : List DailyEntry) (startD todayD : Int) :
    last7DaysE habits es startD todayD = Except.ok (last7Days habits es startD todayD) := by
  unfold last7DaysE last7Days
  rw [mapM_ok (mkDayProgressE habits es) (mkDayProgress habits es)
    (mkDayProgressE_ok habits es), filterMap_ite_eq_map_filter]

/-- The fallible per-habit list always succeeds, with the pure value. -/
theorem mapM_mkHabitProgressE_ok (iconOf : String → Option String)
    (all_entries : List DailyEntry) (startD todayD current_day : Int) (l : List Habit) :
    l.mapM (mkHabitProgressE iconOf all_entries startD todayD current_day) =
      Except.ok (l.map (mkHabitProgress iconOf all_entries startD todayD current_day)) :=
  mapM_ok _ _ (mkHabitProgressE_ok iconOf all_entries startD todayD current_day) l

/-- C9: on every input the computation with explicit division errors
returns `ok` of the pure report — each division happens only under its
positive-denominator guard, so the `ZeroDivisionError` branch is
unreachable. -/
theorem progress_no_domain_error (iconOf : String → Option String) (challenge : Challenge)
    (habits : List Habit) (entries : List DailyEntry) (now : PyDateTime) :
    getChallengeProgressE iconOf challenge habits entries now =
      Except.ok (getChallengeProgress iconOf challenge habits entries now) := by
  cases habits with
  | nil => rfl
  | cons h hs =>
    simp only [getChallengeProgressE, getChallengeProgress, List.isEmpty_cons,
      Bool.false_eq_true, if_false, pctRoundE_ok, last7DaysE_ok,
      mapM_mkHabitProgressE_ok, ok_bind]
    rfl

/-! ## C1: counting completed entries versus checking every active habit

The code's perfect-day test compares the number of completed entries dated
`d` with the number of active habits.  Under the write path's invariants —
at most one entry per (habit, day), and no entry dated before its habit's
creation day — this equals the spec's per-habit check; the lemmas below
carry out the counting argument. -/

/-- Sums of a pointwise sum of maps split. -/
theorem sum_map_add (l : List Habit) (f g : Habit → Nat) :
    (l.map (fun hb => f hb + g hb)).sum = (l.map f).sum + (l.map g).sum := by
  induction l with
  | nil => rfl
  | cons a l ih =>
    simp only [List.map_cons, List.sum_cons, ih]
    omega

/-- An id that belongs to none of the habits contributes nothing. -/
theorem sum_indicator_zero (l : List Habit) (x : String) (hx : x ∉ l.map Habit.id) :
    (l.map (fun hb => if x == hb.id then 1 else 0)).sum = 0 := by
  induction l with
  | nil => rfl
  | cons a l ih =>
    have hne : (x == a.id) = false := by
      apply beq_eq_false_iff_ne.mpr
      intro hcon
      exact hx (hcon ▸ List.mem_map_of_mem Habit.id (List.mem_cons_self a l))
    have hx2 : x ∉ l.map Habit.id := fun hmem => hx (List.mem_cons_of_mem _ hmem)
    simp only [List.map_cons, List.sum_cons, hne, Bool.false_eq_true, if_false, ih hx2]

/-- With pairwise-distinct habit ids, an id that belongs to one of the
habits contributes exactly one. -/
theorem sum_indicator_one (l : List Habit) (x : String)
    (hnd : (l.map Habit.id).Nodup) (hx : x ∈ l.map Habit.id) :
    (l.map (fun hb => if x == hb.id then 1 else 0)).sum = 1 := by
  induction l with
  | nil => cases hx
  | cons a l ih =>
    rw [List.map_cons, List.nodup_cons] at hnd
    rw [List.map_cons] at hx
    rcases List.mem_cons.mp hx with heq | hmem
    · have hb : (x == a.id) = true := beq_iff_eq.mpr heq
      simp only [List.map_cons, List.sum_cons, hb, if_true,
        sum_indicator_zero l x (heq ▸ hnd.1)]
    · have hne : (x == a.id) = false := by
        apply beq_eq_false_iff_ne.mpr
        intro hcon
        exact hnd.1 (hcon ▸ hmem)
      simp only [List.map_cons, List.sum_cons, hne, Bool.false_eq_true, if_false,
        ih hnd.2 hmem]

/-- A count over the entries partitions across the habits when every
counted entry carries the id of one of the habits, the ids being
pairwise distinct. -/
theorem countP_partition (l : List Habit) (P : DailyEntry → Bool)
    (hnd : (l.map Habit.id).Nodup) :
    ∀ es : List DailyEntry, (∀ e ∈ es, P e = true → e.habit_id ∈ l.map Habit.id) →
      es.countP P = (l.map (fun hb => es.countP (fun e => P e && (e.habit_id == hb.id)))).sum := by
  intro es
  induction es with
  | nil =>
    intro _
    rw [List.countP_nil]
    symm
    apply List.sum_eq_zero
    intro x hx
    rcases List.mem_map.mp hx with ⟨hb, _, rfl⟩
    rfl
  | cons a es ih =>
    intro hmem
    have hmem' : ∀ e ∈ es, P e = true → e.habit_id ∈ l.map Habit.id :=
      fun e he => hmem e (List.mem_cons_of_mem a he)
    have hsplit : (l.map (fun hb => (a :: es).countP (fun e => P e && (e.habit_id == hb.id)))) =
        (l.map (fun hb => es.countP (fun e => P e && (e.habit_id == hb.id)) +
          if (P a && (a.habit_id == hb.id)) then 1 else 0)) := by
      apply List.map_congr_left
      intro hb _
      rw [List.countP_cons]
    rw [List.countP_cons, ih hmem', hsplit, sum_map_add]
    by_cases hPa : P a = true
    · have hind : (l.map (fun hb => if (P a && (a.habit_id == hb.id)) then 1 else 0)) =
          (l.map (fun hb => if (a.habit_id == hb.id) then 1 else 0)) := by
        apply List.map_congr_left
        intro hb _
        rw [hPa, Bool.true_and]
      rw [hind, hPa, if_pos rfl,
        sum_indicator_one l a.habit_id hnd (hmem a (List.mem_cons_self a es) hPa)]
    · have hPa' : P a = false := Bool.eq_false_iff.mpr hPa
      have hind : (l.map (fun hb => if (P a && (a.habit_id == hb.id)) then 1 else 0)) =
          (l.map (fun hb => (0 : Nat))) := by
        apply List.map_congr_left
        intro hb _
        rw [hPa', Bool.false_and]
        rfl
      rw [hind, hPa']
      have hz : (l.map (fun _ : Habit => (0 : Nat))).sum = 0 := by
        apply List.sum_eq_zero
        intro x hx
        rcases List.mem_map.mp hx with ⟨hb, _, rfl⟩
        rfl
      rw [hz]
      rfl

/-- A predicate that no two distinct list members can satisfy at once is
satisfied at most once. -/
theorem countP_le_one_of_pairwise (q : DailyEntry → Bool) :
    ∀ es : List DailyEntry,
      es.Pairwise (fun e1 e2 => ¬(q e1 = true ∧ q e2 = true)) → es.countP q ≤ 1 := by
  intro es
  induction es with
  | nil => intro _; exact Nat.zero_le 1
  | cons a es ih =>
    intro hpw
    rw [List.pairwise_cons] at hpw
    rw [List.countP_cons]
    by_cases hqa : q a = true
    · have hz : es.countP q = 0 := by
        rw [List.countP_eq_zero]
        intro e he hqe
        exact hpw.1 e he ⟨hqa, hqe⟩
      rw [hz, hqa, if_pos rfl]
    · have hqa' : q a = false := Bool.eq_false_iff.mpr hqa
      simp only [hqa', Bool.false_eq_true, if_false]
      have := ih hpw.2
      omega

/-- Dropping the members a predicate never holds on does not change a
mapped sum. -/
theorem sum_map_filter_of_zero (p : Habit → Bool) (f : Habit → Nat) :
    ∀ l : List Habit, (∀ hb ∈ l, p hb = false → f hb = 0) →
      (l.map f).sum = ((l.filter p).map f).sum := by
  intro l
  induction l with
  | nil => intro _; rfl
  | cons a l ih =>
    intro hz
    have hz' : ∀ hb ∈ l, p hb = false → f hb = 0 :=
      fun hb hm => hz hb (List.mem_cons_of_mem a hm)
    by_cases hpa : p a = true
    · rw [List.filter_cons_of_pos hpa, List.map_cons, List.map_cons, List.sum_cons,
        List.sum_cons, ih hz']
    · have hpa' : p a = false := Bool.eq_false_iff.mpr hpa
      rw [List.filter_cons_of_neg (by rw [hpa']; exact Bool.false_ne_true), List.map_cons,
        List.sum_cons, hz a (List.mem_cons_self a l) hpa', ih hz']
      omega

/-- A sum of 0/1 indicators is a `countP`. -/
theorem sum_ite_eq_countP (p : Habit → Bool) :
    ∀ l : List Habit, (l.map (fun hb => if p hb then 1 else 0)).sum = l.countP p := by
  intro l
  induction l with
  | nil => rfl
  | cons a l ih =>
    rw [List.map_cons, List.sum_cons, List.countP_cons, ih]
    by_cases hpa : p a = true
    · rw [hpa, if_pos rfl]
      omega
    · have hpa' : p a = false := Bool.eq_false_iff.mpr hpa
      rw [hpa']
      simp

/-- The day's completed-entry count equals the number of active habits
having a completed entry on that day, provided every entry belongs to a
listed habit, habit ids are pairwise distinct, no two entries share a
(habit, day) pair, and no entry is dated before its habit's creation day. -/
theorem dayCount_eq_active_countP (habits : List Habit) (es : List DailyEntry) (d : Int)
    (hnd : (habits.map Habit.id).Nodup)
    (hmem : ∀ e ∈ es, e.habit_id ∈ habits.map Habit.id)
    (huniq : es.Pairwise (fun e1 e2 =>
      ¬(e1.habit_id = e2.habit_id ∧ (normalize_date e1.date).day = (normalize_date e2.date).day)))
    (hnoback : ∀ e ∈ es, ∀ hb ∈ habits, e.habit_id = hb.id →
      (normalize_date hb.created_at).day ≤ (normalize_date e.date).day) :
    (es.filter (fun e => decide ((normalize_date e.date).day = d) && e.completed)).length =
      (get_active_habits_for_date habits d).countP (fun hb =>
        es.any (fun e => decide ((normalize_date e.date).day = d) && e.completed &&
          (e.habit_id == hb.id))) := by
  rw [← List.countP_eq_length_filter]
  rw [countP_partition habits _ hnd es (fun e he _ => hmem e he)]
  have hper : ∀ hb ∈ habits,
      es.countP (fun e => (decide ((normalize_date e.date).day = d) && e.completed) &&
        (e.habit_id == hb.id)) =
      if decide ((normalize_date hb.created_at).day ≤ d) then
        (if es.any (fun e => decide ((normalize_date e.date).day = d) && e.completed &&
          (e.habit_id == hb.id)) then 1 else 0)
      else 0 := by
    intro hb hhb
    by_cases hact : (normalize_date hb.created_at).day ≤ d
    · rw [if_pos (decide_eq_true hact)]
      have hle : es.countP (fun e => (decide ((normalize_date e.date).day = d) && e.completed) &&
          (e.habit_id == hb.id)) ≤ 1 := by
        apply countP_le_one_of_pairwise _ es
        apply List.Pairwise.imp _ huniq
        intro e1 e2 hne hq
        apply hne
        simp only [Bool.and_eq_true, decide_eq_true_eq, beq_iff_eq] at hq
        exact ⟨hq.1.2.trans hq.2.2.symm, hq.1.1.1.trans hq.2.1.1.symm⟩
      by_cases hany : es.any (fun e => decide ((normalize_date e.date).day = d) && e.completed &&
          (e.habit_id == hb.id)) = true
      · rw [if_pos hany]
        rcases List.any_eq_true.mp hany with ⟨e, he, hqe⟩
        have hpos : 0 < es.countP (fun e => (decide ((normalize_date e.date).day = d) &&
            e.completed) && (e.habit_id == hb.id)) :=
          List.countP_pos_iff.mpr ⟨e, he, hqe⟩
        omega
      · rw [if_neg hany]
        rw [List.countP_eq_zero]
        intro e he hqe
        exact hany (List.any_eq_true.mpr ⟨e, he, hqe⟩)
    · rw [if_neg (by simp [hact])]
      rw [List.countP_eq_zero]
      intro e he hqe
      simp only [Bool.and_eq_true, decide_eq_true_eq, beq_iff_eq] at hqe
      exact hact (le_trans (hnoback e he hb hhb hqe.2) (le_of_eq hqe.1.1))
  rw [List.map_congr_left hper]
  rw [sum_map_filter_of_zero (fun hb => decide ((normalize_date hb.created_at).day ≤ d)) _
    habits (fun hb _ hfalse => by
      rw [show decide ((normalize_date hb.created_at).day ≤ d) = false from hfalse]
      rfl)]
  have hinner : ∀ hb ∈ habits.filter (fun hb => decide ((normalize_date hb.created_at).day ≤ d)),
      (if decide ((normalize_date hb.created_at).day ≤ d) then
        (if es.any (fun e => decide ((normalize_date e.date).day = d) && e.completed &&
          (e.habit_id == hb.id)) then 1 else 0)
      else 0) =
      (if es.any (fun e => decide ((normalize_date e.date).day = d) && e.completed &&
          (e.habit_id == hb.id)) then 1 else 0) := by
    intro hb hhb
    rw [if_pos (List.mem_filter.mp hhb).2]
  rw [List.map_congr_left hinner, sum_ite_eq_countP]
  rfl

/-- Counterexample to C1 as stated: habit B was created on day 2 but has a
completed entry backdated to day 0 (the entry write path accepts any date
from the challenge start on).  On day 0 only habit A is active and A has no
entry, yet the count comparison sees one completed entry against one active
habit and reports the day perfect — so the forward scan reports a streak of
1 — while the spec's per-habit reading (`specPerfectDay`) is false. -/
theorem perfect_day_count_counterexample :
    perfectDay [habitA, habitLate]
      (queryEntries [habitA, habitLate] entriesBackdated (normalize_date challengeA.start_date)
        (normalize_date ⟨2, 0⟩)) 0 = true ∧
    specPerfectDay [habitA, habitLate]
      (queryEntries [habitA, habitLate] entriesBackdated (normalize_date challengeA.start_date)
        (normalize_date ⟨2, 0⟩)) 0 = false ∧
    (getChallengeProgress iconNone challengeA [habitA, habitLate] entriesBackdated
        ⟨2, 0⟩).longest_streak = 1 :=
  ⟨rfl, rfl, rfl⟩

/-- C1 (amended): for every day, the computation's perfect-day test agrees
with "the active-habit set is non-empty and every active habit has a
completed entry dated that day" provided the write-path invariants hold:
habit ids are pairwise distinct, no two entries share a (habit, day) pair
(the daily_entries unique constraint), and no entry is dated before its
habit's creation day.  Without the last condition the two differ
(`perfect_day_count_counterexample`). -/
theorem perfect_day_iff_all_completed (challenge : Challenge) (habits : List Habit)
    (entries : List DailyEntry) (now : PyDateTime)
    (hnd : (habits.map Habit.id).Nodup)
    (huniq : entries.Pairwise (fun e1 e2 =>
      ¬(e1.habit_id = e2.habit_id ∧ (normalize_date e1.date).day = (normalize_date e2.date).day)))
    (hnoback : ∀ e ∈ entries, ∀ hb ∈ habits, e.habit_id = hb.id →
      (normalize_date hb.created_at).day ≤ (normalize_date e.date).day) :
    ∀ d : Int,
      perfectDay habits (queryEntries habits entries (normalize_date challenge.start_date)
        (normalize_date now)) d =
      specPerfectDay habits (queryEntries habits entries (normalize_date challenge.start_date)
        (normalize_date now)) d := by
  intro d
  have hmem : ∀ e ∈ queryEntries habits entries (normalize_date challenge.start_date)
      (normalize_date now), e.habit_id ∈ habits.map Habit.id := by
    intro e he
    simp only [queryEntries] at he
    have hc := (List.mem_filter.mp he).2
    simp only [Bool.and_eq_true] at hc
    exact List.mem_of_elem_eq_true hc.1.1
  have huniq' : (queryEntries habits entries (normalize_date challenge.start_date)
      (normalize_date now)).Pairwise (fun e1 e2 =>
      ¬(e1.habit_id = e2.habit_id ∧
        (normalize_date e1.date).day = (normalize_date e2.date).day)) :=
    List.Pairwise.sublist (List.filter_sublist entries) huniq
  have hnoback' : ∀ e ∈ queryEntries habits entries (normalize_date challenge.start_date)
      (normalize_date now), ∀ hb ∈ habits, e.habit_id = hb.id →
      (normalize_date hb.created_at).day ≤ (normalize_date e.date).day := by
    intro e he
    have he2 : e ∈ entries := by
      simp only [queryEntries] at he
      exact (List.mem_filter.mp he).1
    exact hnoback e he2
  have hcount := dayCount_eq_active_countP habits
    (queryEntries habits entries (normalize_date challenge.start_date) (normalize_date now))
    d hnd hmem huniq' hnoback'
  rw [Bool.eq_iff_iff]
  unfold perfectDay specPerfectDay dayCompletedCount
  simp only [Bool.and_eq_true, decide_eq_true_eq, Bool.not_eq_true', List.all_eq_true]
  constructor
  · rintro ⟨hpos, hcnt⟩
    have hlen : (((queryEntries habits entries (normalize_date challenge.start_date)
        (normalize_date now)).filter (fun e => decide ((normalize_date e.date).day = d) &&
          e.completed)).length) = (get_active_habits_for_date habits d).length := by
      exact_mod_cast hcnt
    constructor
    · apply List.isEmpty_eq_false.mpr
      apply List.ne_nil_of_length_pos
      exact_mod_cast hpos
    · exact List.countP_eq_length.mp (hcount.symm.trans hlen)
  · rintro ⟨hemp, hall⟩
    have hlen : ((queryEntries habits entries (normalize_date challenge.start_date)
        (normalize_date now)).filter (fun e => decide ((normalize_date e.date).day = d) &&
          e.completed)).length = (get_active_habits_for_date habits d).length :=
      hcount.trans (List.countP_eq_length.mpr hall)
    constructor
    · have : (get_active_habits_for_date habits d) ≠ [] := by
        simpa [List.isEmpty_eq_false] using hemp
      have := List.length_pos_of_ne_nil this
      exact_mod_cast this
    · exact_mod_cast hlen

/-- Witness for the amended C1: Scenario A's well-formed data, on day 14. -/
theorem perfect_day_iff_all_completed_witness :
    perfectDay [habitA, habitB]
      (queryEntries [habitA, habitB] entriesA (normalize_date challengeA.start_date)
        (normalize_date nowA)) 14 =
    specPerfectDay [habitA, habitB]
      (queryEntries [habitA, habitB] entriesA (normalize_date challengeA.start_date)
        (normalize_date nowA)) 14 :=
  perfect_day_iff_all_completed challengeA [habitA, habitB] entriesA nowA
    (by decide) (by decide) (by decide) 14
